import Mathlib

/-
Verification of the NeMo fragment consisting of
  nemo/collections/nlp/modules/common/megatron/adapters/mcore_mixins.py
  nemo/collections/nlp/models/language_modeling/megatron/griffin/griffin_model.py
  nemo/collections/vlm/neva/data/multimodal_tokens.py
as a shallow embedding.  Tensors are modelled as nested lists (one list
level per dimension) over an abstract element type; torch reshaping and
splitting become list chunking, taking and dropping; Python exceptions
become an explicit error monad.  External framework pieces that the
fragment merely calls (linear layers, activation functions, adapter
modules) are abstract function fields of the module states.
-/

/-- Kinds of Python exception that the modelled code can raise. -/
inductive PyError : Type
  | valueError : PyError
  | assertionError : PyError
  | attributeError : PyError
deriving DecidableEq, Repr

/-- A 3-dimensional tensor as a nested list. -/
abbrev Tensor3 (α : Type) : Type := List (List (List α))

/-- A 4-dimensional tensor as a nested list. -/
abbrev Tensor4 (α : Type) : Type := List (List (List (List α)))

/-- `rect3 sq bs hs t` holds when `t` is a rectangular tensor of shape
`[sq, bs, hs]`. -/
def rect3 (sq bs hs : Nat) (t : Tensor3 α) : Bool :=
  t.length == sq && t.all (fun r => r.length == bs && r.all (fun c => c.length == hs))

/-- `rect4 d0 d1 d2 d3 t` holds when `t` is a rectangular tensor of shape
`[d0, d1, d2, d3]`. -/
def rect4 (d0 d1 d2 d3 : Nat) (t : Tensor4 α) : Bool :=
  t.length == d0 &&
    t.all (fun r => r.length == d1 &&
      r.all (fun p => p.length == d2 && p.all (fun g => g.length == d3)))

/-- Split a list into `k` consecutive chunks of length `n` each
(the model of a torch `view`, adding one dimension of extent `k`). -/
def chunkN (k n : Nat) (l : List α) : List (List α) :=
  match k with
  | 0 => []
  | k + 1 => l.take n :: chunkN k n (l.drop n)

/-- Entry of a 3-dimensional tensor at index `(i, j, k)`. -/
def get3 (t : Tensor3 α) (i j k : Nat) : Option α :=
  (t[i]?.bind fun row => row[j]?).bind fun col => col[k]?

/-- Entry of a 4-dimensional tensor at index `(i, j, k, m)`. -/
def get4 (t : Tensor4 α) (i j k m : Nat) : Option α :=
  ((t[i]?.bind fun row => row[j]?).bind fun pos => pos[k]?).bind fun grp => grp[m]?

/-- The NeMo adapter keys used by the mixins (`AdapterName` in
`parallel_adapters.py`). -/
inductive AdapterName : Type
  | LORA_KQV_ADAPTER
  | KEY_INFUSED
  | VALUE_INFUSED
  | MLP_INFUSED
  | PTUNING_ADAPTER
  | PRE_ATTN_ADAPTER
  | POST_ATTN_ADAPTER
deriving DecidableEq, Repr

/-- The NeMo adapter config classes whose `_target_` strings the mixins
register as accepted adapter types. -/
inductive AdapterCfg : Type
  | LoraKQVAdapterConfig
  | InfusedAdapterConfig
  | MLPInfusedAdapterConfig
  | PromptEncoderAdapterConfig
  | ParallelLinearAdapterConfig
deriving DecidableEq, Repr

/- ------------------------------------------------------------------
§ swap_mcore_mixin and mcore_register_adapters (claims C2, C3)
------------------------------------------------------------------ -/

/-- The four concrete mixin classes of `mcore_mixins.py`. -/
inductive MixinClass : Type
  | mCoreSelfAttentionMixin
  | mCoreMLPMixin
  | mCoreGPTEmbeddingMixin
  | mCoreTransformerLayerMixin
deriving DecidableEq, Repr

/-- The mutable state of a module that `swap_mcore_mixin` patches:
its class pointer, its registered accepted adapter types
(`set_accepted_adapter_types`, modelled from the spec as replacing the
registration), the `return_layernorm_output` flag of its `linear_qkv`
submodule, and an abstract remainder `rest` standing for every other
attribute (weights, submodules, configuration flags). -/
structure PatchedModule (ρ : Type) : Type where
  cls : Option MixinClass
  accepted_adapter_types : List AdapterCfg
  linear_qkv_return_layernorm_output : Bool
  rest : ρ
deriving DecidableEq, Repr

/-- `mcore_register_adapters` of each mixin class: registers that class's
accepted adapter config types; the self-attention mixin additionally sets
`self.linear_qkv.return_layernorm_output = True`. -/
def mcore_register_adapters (M : MixinClass) (m : PatchedModule ρ) : PatchedModule ρ :=
  match M with
  | .mCoreSelfAttentionMixin =>
      { m with
        accepted_adapter_types := [.LoraKQVAdapterConfig, .InfusedAdapterConfig],
        linear_qkv_return_layernorm_output := true }
  | .mCoreMLPMixin =>
      { m with accepted_adapter_types := [.MLPInfusedAdapterConfig] }
  | .mCoreGPTEmbeddingMixin =>
      { m with accepted_adapter_types := [.PromptEncoderAdapterConfig] }
  | .mCoreTransformerLayerMixin =>
      { m with accepted_adapter_types := [.ParallelLinearAdapterConfig] }

/-- `swap_mcore_mixin(module, mcore_mixin)`: sets `module.__class__` and
then calls `module.mcore_register_adapters()`. -/
def swap_mcore_mixin (m : PatchedModule ρ) (M : MixinClass) : PatchedModule ρ :=
  mcore_register_adapters M { m with cls := some M }

/- ------------------------------------------------------------------
§ MCoreSelfAttentionMixin.get_query_key_value_tensors (claims C1, C4, C9)
------------------------------------------------------------------ -/

/-- The possible runtime types of `self.linear_qkv` distinguished by
`isinstance` in `get_query_key_value_tensors`. -/
inductive LinearQKVType : Type
  | tELayerNormColumnParallelLinear
  | tEColumnParallelLinear
  | otherType
deriving DecidableEq, Repr

/-- State of a (patched) `SelfAttention` module.  The linear projection
and the adapters are abstract tensor functions supplied by the external
framework; `linear_qkv` is its main (linear) output on a given input and
`linear_qkv_layernorm` the layernorm output that the fused
`TELayerNormColumnParallelLinear` module returns alongside it. -/
structure SelfAttentionState (α : Type) : Type where
  linear_qkv_type : LinearQKVType
  linear_qkv : Tensor3 α → Tensor3 α
  linear_qkv_layernorm : Tensor3 α → Tensor3 α
  num_attention_heads_per_partition : Nat
  num_query_groups_per_partition : Nat
  hidden_size_per_attention_head : Nat
  is_adapter_available : Bool
  lora_kqv_adapter : Option (Tensor3 α → Tensor3 α)
  key_infused_adapter : Option (Tensor3 α → Tensor3 α)
  value_infused_adapter : Option (Tensor3 α → Tensor3 α)

/-- Elementwise addition of two tensors of equal shape
(`mixed_qkv + lora_mixed_qkv`). -/
def add3 [Add α] (a b : Tensor3 α) : Tensor3 α :=
  List.zipWith (List.zipWith (List.zipWith (· + ·))) a b

/-- The reshape-and-split pipeline at the end of
`get_query_key_value_tensors`: view `[sq, b, ng*((np/ng)+2)*hn]` as
`[sq, b, ng, ((np/ng)+2)*hn]`, split the last dimension into sizes
`[(np/ng)*hn, hn, hn]`, then reshape the query to `[sq, b, -1, hn]`. -/
def qkv_view_split (np ng hn : Nat) (mixed : Tensor3 α) :
    Tensor4 α × Tensor4 α × Tensor4 α :=
  let q := np / ng
  let query := mixed.map fun row => row.map fun col =>
    let flat := ((chunkN ng ((q + 2) * hn) col).map fun grp => grp.take (q * hn)).flatten
    chunkN (flat.length / hn) hn flat
  let key := mixed.map fun row => row.map fun col =>
    (chunkN ng ((q + 2) * hn) col).map fun grp => (grp.drop (q * hn)).take hn
  let value := mixed.map fun row => row.map fun col =>
    (chunkN ng ((q + 2) * hn) col).map fun grp => (grp.drop (q * hn + hn)).take hn
  (query, key, value)

/-- `key_infused_adapter(key.reshape(kls[0], kls[1], -1)).reshape(kls)`:
flatten the last two dimensions, apply the adapter, and reshape back to
the original `[sq, b, ng, hn]` shape. -/
def apply_infused (ng hn : Nat) (f : Tensor3 α → Tensor3 α) (t : Tensor4 α) : Tensor4 α :=
  let flat : Tensor3 α := t.map fun row => row.map List.flatten
  (f flat).map fun row => row.map (chunkN ng hn)

/-- `MCoreSelfAttentionMixin.get_query_key_value_tensors`: derive the
`query`, `key` and `value` tensors from `hidden_states`, raising
`ValueError` when `linear_qkv` is of an unrecognized type, adding the
LoRA correction when a LoRA adapter is present, and applying the IA3
key/value infused adapters when present (with an `AssertionError` when
only one of the two is present). -/
def get_query_key_value_tensors [Add α] (s : SelfAttentionState α)
    (hidden_states : Tensor3 α) :
    Except PyError (Tensor4 α × Tensor4 α × Tensor4 α) := do
  let main := s.linear_qkv hidden_states
  let layernorm_output := s.linear_qkv_layernorm hidden_states
  let mixed₀ : Tensor3 α ←
    match s.linear_qkv_type with
    | .tELayerNormColumnParallelLinear => Except.ok main
    | .tEColumnParallelLinear => Except.ok main
    | .otherType => Except.error PyError.valueError
  let mixed : Tensor3 α ←
    if s.is_adapter_available then
      match s.lora_kqv_adapter with
      | some lora =>
        match s.linear_qkv_type with
        | .tELayerNormColumnParallelLinear => Except.ok (add3 mixed₀ (lora layernorm_output))
        | .tEColumnParallelLinear => Except.ok (add3 mixed₀ (lora hidden_states))
        | .otherType => Except.error PyError.valueError
      | none => Except.ok mixed₀
    else Except.ok mixed₀
  let (query, key, value) :=
    qkv_view_split s.num_attention_heads_per_partition
      s.num_query_groups_per_partition s.hidden_size_per_attention_head mixed
  let (key, value) ←
    if s.is_adapter_available then
      match s.key_infused_adapter, s.value_infused_adapter with
      | some kf, some vf =>
        Except.ok
          (apply_infused s.num_query_groups_per_partition
              s.hidden_size_per_attention_head kf key,
            apply_infused s.num_query_groups_per_partition
              s.hidden_size_per_attention_head vf value)
      | some _, none => Except.error PyError.assertionError
      | none, some _ => Except.error PyError.assertionError
      | none, none => Except.ok (key, value)
    else Except.ok (key, value)
  Except.ok (query, key, value)

/-- Modelled from the spec: the unpatched base-class method
`SelfAttention.get_query_key_value_tensors` of the external framework —
the same projection and reshape-and-split pipeline without any adapter
splice (the mixin is the base method with the LoRA and IA3 logic spliced
in). -/
def base_get_query_key_value_tensors (s : SelfAttentionState α) (hidden_states : Tensor3 α) :
    Tensor4 α × Tensor4 α × Tensor4 α :=
  qkv_view_split s.num_attention_heads_per_partition
    s.num_query_groups_per_partition s.hidden_size_per_attention_head
    (s.linear_qkv hidden_states)

/- ------------------------------------------------------------------
§ MCoreMLPMixin.forward (claim C1)
------------------------------------------------------------------ -/

/-- State of a (patched) `MLP` module over an abstract tensor type `τ`.
The two linear layers return a value together with an optional bias; the
activation, the fused bias-gelu kernel and tensor addition are abstract. -/
structure MLPState (τ : Type) : Type where
  linear_fc1 : τ → τ × Option τ
  linear_fc2 : τ → τ × Option τ
  bias_activation_fusion : Bool
  add_bias_linear : Bool
  activation_is_gelu : Bool
  activation_func : τ → τ
  bias_gelu_impl : τ → Option τ → τ
  tensor_add : τ → τ → τ
  is_adapter_available : Bool
  mlp_infused_adapter : Option (τ → τ)

/-- `MCoreMLPMixin.forward`: first linear layer, bias-activation (fused
with asserts, or unfused), the IA3 MLP infused adapter when present, then
the second linear layer. -/
def mCoreMLPMixin_forward (s : MLPState τ) (hidden_states : τ) :
    Except PyError (τ × Option τ) := do
  let (intermediate_parallel, bias_parallel) := s.linear_fc1 hidden_states
  let intermediate_parallel : τ ←
    if s.bias_activation_fusion then
      if s.add_bias_linear then
        if s.activation_is_gelu then
          Except.ok (s.bias_gelu_impl intermediate_parallel bias_parallel)
        else Except.error PyError.assertionError
      else Except.error PyError.assertionError
    else
      let withBias :=
        match bias_parallel with
        | some b => s.tensor_add intermediate_parallel b
        | none => intermediate_parallel
      Except.ok (s.activation_func withBias)
  let intermediate_parallel :=
    match s.mlp_infused_adapter with
    | some f => f intermediate_parallel
    | none => intermediate_parallel
  Except.ok (s.linear_fc2 intermediate_parallel)

/-- Modelled from the spec: the unpatched base-class method
`MLP.forward` of the external framework — the mixin's body without the
adapter splice. -/
def base_mlp_forward (s : MLPState τ) (hidden_states : τ) :
    Except PyError (τ × Option τ) := do
  let (intermediate_parallel, bias_parallel) := s.linear_fc1 hidden_states
  let intermediate_parallel : τ ←
    if s.bias_activation_fusion then
      if s.add_bias_linear then
        if s.activation_is_gelu then
          Except.ok (s.bias_gelu_impl intermediate_parallel bias_parallel)
        else Except.error PyError.assertionError
      else Except.error PyError.assertionError
    else
      let withBias :=
        match bias_parallel with
        | some b => s.tensor_add intermediate_parallel b
        | none => intermediate_parallel
      Except.ok (s.activation_func withBias)
  Except.ok (s.linear_fc2 intermediate_parallel)

/- ------------------------------------------------------------------
§ MCoreGPTEmbeddingMixin.forward (claims C1, C10)
------------------------------------------------------------------ -/

/-- A NeMo `PromptEncoderAdapter` as seen by the embedding mixin: its
`virtual_tokens` count and its forward on a batch size, producing the
virtual-token embeddings. -/
structure PtuningAdapter (α : Type) : Type where
  virtual_tokens : Nat
  forward : Nat → Tensor3 α

/-- State of a (patched) `LanguageModelEmbedding` module over abstract
input types.  `base_forward` is the base-class `forward` (the external
embedding lookup). -/
structure EmbeddingState (ι α : Type) : Type where
  base_forward : ι → ι → Tensor3 α
  is_adapter_available : Bool
  ptuning_adapter : Option (PtuningAdapter α)

/-- `MCoreGPTEmbeddingMixin.forward`: the base embedding, then the
p-tuning splice.  Note the source reads `ptuning_adapter.virtual_tokens`
before checking `ptuning_adapter` for `None`, so when adapters are
available but no `PTUNING_ADAPTER` module is registered the method raises
`AttributeError`. -/
def mCoreGPTEmbeddingMixin_forward (s : EmbeddingState ι α) (input_ids position_ids : ι) :
    Except PyError (Tensor3 α) := do
  let encoder_input := s.base_forward input_ids position_ids
  if s.is_adapter_available then
    let sq := encoder_input.length
    let bs := (encoder_input.headD []).length
    match s.ptuning_adapter with
    | none => Except.error PyError.attributeError
    | some pt =>
      if pt.virtual_tokens ≤ sq then
        let virtual_embeddings := pt.forward bs
        Except.ok (virtual_embeddings ++ encoder_input.drop pt.virtual_tokens)
      else Except.ok encoder_input
  else Except.ok encoder_input

/-- Modelled from the spec: the unpatched base-class method
`LanguageModelEmbedding.forward` of the external framework. -/
def base_embedding_forward (s : EmbeddingState ι α) (input_ids position_ids : ι) :
    Tensor3 α :=
  s.base_forward input_ids position_ids

/- ------------------------------------------------------------------
§ GriffinModel (claims C5, C8)
------------------------------------------------------------------ -/

/-- The fields of a `GriffinModel` relevant to its constructor
invariants, over an abstract weight type `W`.  `embedding_weight` is
`self.embedding.word_embeddings.weight` when the embedding submodule
exists, `output_layer_weight` the weight of the (never constructed)
`output_layer`. -/
structure GriffinState (W : Type) : Type where
  vocab_size : Nat
  logits_soft_cap : ℝ
  position_embedding_type : String
  pre_process : Bool
  post_process : Bool
  share_embeddings_and_output_weights : Bool
  embedding_weight : Option W
  output_layer_weight : Option W
  input_tensor : Option W

/-- `GriffinModel.__init__`: stores the constructor arguments, forces
`post_process = False` and `share_embeddings_and_output_weights = True`,
and creates the embedding submodule (whose word-embedding weight is `w`)
only when `pre_process` is true. -/
def griffinModel_init (W : Type) (vocab_size : Nat) (logits_soft_cap : ℝ)
    (position_embedding_type : String) (pre_process : Bool) (w : W) :
    GriffinState W :=
  { vocab_size := vocab_size
    logits_soft_cap := logits_soft_cap
    position_embedding_type := position_embedding_type
    pre_process := pre_process
    post_process := false
    share_embeddings_and_output_weights := true
    embedding_weight := if pre_process then some w else none
    output_layer_weight := none
    input_tensor := none }

/-- `GriffinModel.shared_embedding_or_output_weight`: the word-embedding
weight during pre-processing, the output-layer weight during
post-processing, otherwise `None`. -/
def shared_embedding_or_output_weight (s : GriffinState W) : Option W :=
  if s.pre_process then s.embedding_weight
  else if s.post_process then s.output_layer_weight
  else none

/-- `GriffinModel.set_input_tensor`: the only state-mutating method;
stores the given tensor and touches nothing else. -/
def set_input_tensor (s : GriffinState W) (t : W) : GriffinState W :=
  { s with input_tensor := some t }

/-- `GriffinModel._embedding_decode_` on a tensor modelled as a function
of three indices: each raw logit `x` becomes `tanh(x / logits_soft_cap) *
logits_soft_cap`, and the first two dimensions are transposed when
`transpose` is set (`contiguous()` does not change entries). -/
noncomputable def _embedding_decode_ (logits_soft_cap : ℝ)
    (logits : Nat → Nat → Nat → ℝ) (transpose : Bool) : Nat → Nat → Nat → ℝ :=
  let capped := fun i j k => Real.tanh (logits i j k / logits_soft_cap) * logits_soft_cap
  if transpose then fun i j k => capped j i k else capped

/-- `GriffinModel.embedding_decode`: permute `x` from `[s, b, h]` to
`[b, s, h]`, multiply by the transposed word-embedding weight
(`x @ W.T`, a sum over the hidden dimension of size `h`), then apply
`_embedding_decode_`. -/
noncomputable def embedding_decode (logits_soft_cap : ℝ) (h : Nat)
    (weight : Nat → Nat → ℝ) (x : Nat → Nat → Nat → ℝ) (transpose : Bool) :
    Nat → Nat → Nat → ℝ :=
  let xp := fun b s k => x s b k
  let logits := fun b s v => ∑ k ∈ Finset.range h, xp b s k * weight v k
  _embedding_decode_ logits_soft_cap logits transpose

/- ------------------------------------------------------------------
§ Multimodal placeholder tokens (claim C6)
------------------------------------------------------------------ -/

def IGNORE_INDEX : Int := -100

def IMAGE_TOKEN_INDEX : Int := -200

def VIDEO_TOKEN_INDEX : Int := -300

/-- The `MultiModalToken` dataclass of `multimodal_tokens.py`.  The
`encoder_fn` field is an optional callable; its argument and result are
abstract. -/
structure MultiModalToken : Type where
  token_str : String
  token_index : Int
  media_type : String
  use_start_end : Bool
  encoder_fn : Option (Unit → Unit) := none

/-- `ImageToken()` constructed with no arguments: all dataclass defaults. -/
def ImageToken : MultiModalToken :=
  { token_str := "<image>"
    token_index := -200
    media_type := "image"
    use_start_end := false }

/-- `VideoToken()` constructed with no arguments: all dataclass defaults. -/
def VideoToken : MultiModalToken :=
  { token_str := "<video>"
    token_index := -300
    media_type := "video"
    use_start_end := false }

/- ------------------------------------------------------------------
§ Helper lemmas
------------------------------------------------------------------ -/

theorem chunkN_length (k n : Nat) (l : List α) : (chunkN k n l).length = k := by
  induction k generalizing l with
  | zero => rfl
  | succ k ih => simp [chunkN, ih]

theorem chunkN_getElem? (k n : Nat) (l : List α) (i : Nat) :
    (chunkN k n l)[i]? = if i < k then some ((l.drop (i * n)).take n) else none := by
  induction k generalizing l i with
  | zero => simp [chunkN]
  | succ k ih =>
    cases i with
    | zero => simp [chunkN]
    | succ i =>
      simp only [chunkN, List.getElem?_cons_succ, ih]
      rw [List.drop_drop]
      have harith : n + i * n = (i + 1) * n := by ring
      rw [harith]
      by_cases h : i < k
      · simp [h, Nat.succ_lt_succ h]
      · simp [h, fun hc => h (Nat.lt_of_succ_lt_succ hc)]

theorem mem_chunkN_length {k n : Nat} {l : List α} (h : k * n ≤ l.length)
    (c : List α) (hc : c ∈ chunkN k n l) : c.length = n := by
  induction k generalizing l with
  | zero => simp [chunkN] at hc
  | succ k ih =>
    simp only [chunkN, List.mem_cons] at hc
    rcases hc with rfl | hc
    · rw [List.length_take]
      have : n ≤ l.length := le_trans (Nat.le_mul_of_pos_left n (Nat.succ_pos k)) h
      omega
    · refine ih ?_ hc
      rw [List.length_drop]
      have := h
      rw [Nat.succ_mul] at this
      omega

theorem flatten_length_of_forall_length {n : Nat} (ps : List (List α))
    (hp : ∀ p ∈ ps, p.length = n) : ps.flatten.length = ps.length * n := by
  induction ps with
  | nil => simp
  | cons p ps ih =>
    simp only [List.flatten_cons, List.length_append, List.length_cons]
    rw [hp p (List.mem_cons_self p ps), ih fun q hq => hp q (List.mem_cons_of_mem p hq)]
    ring

theorem flatten_getElem?_of_forall_length {n : Nat} (hpos : 0 < n) (ps : List (List α))
    (hp : ∀ p ∈ ps, p.length = n) (m : Nat) :
    ps.flatten[m]? = ps[m / n]?.bind fun p => p[m % n]? := by
  induction ps generalizing m with
  | nil => simp
  | cons p ps ih =>
    have hlen : p.length = n := hp p (List.mem_cons_self p ps)
    by_cases hm : m < n
    · rw [List.flatten_cons, List.getElem?_append_left (by omega),
        Nat.div_eq_of_lt hm, Nat.mod_eq_of_lt hm]
      simp
    · obtain ⟨a, rfl⟩ : ∃ a, m = a + n := ⟨m - n, by omega⟩
      rw [List.flatten_cons, List.getElem?_append_right (by omega), hlen,
        Nat.add_sub_cancel, Nat.add_div_right a hpos, Nat.add_mod_right a n]
      rw [ih fun q hq => hp q (List.mem_cons_of_mem p hq)]
      simp

theorem rect3_iff (sq bs hs : Nat) (t : Tensor3 α) :
    rect3 sq bs hs t = true ↔
      (t.length = sq ∧ ∀ r ∈ t, r.length = bs ∧ ∀ c ∈ r, c.length = hs) := by
  simp [rect3, List.all_eq_true]

theorem rect4_iff (d0 d1 d2 d3 : Nat) (t : Tensor4 α) :
    rect4 d0 d1 d2 d3 t = true ↔
      (t.length = d0 ∧ ∀ r ∈ t, r.length = d1 ∧
        ∀ p ∈ r, p.length = d2 ∧ ∀ g ∈ p, g.length = d3) := by
  simp [rect4, List.all_eq_true]

theorem real_tanh_bounds (y : ℝ) : -1 < Real.tanh y ∧ Real.tanh y < 1 := by
  constructor
  · have h := Real.sinh_lt_cosh (-y)
    rw [Real.sinh_neg, Real.cosh_neg] at h
    rw [Real.tanh_eq_sinh_div_cosh, lt_div_iff₀ (Real.cosh_pos y)]
    linarith
  · rw [Real.tanh_eq_sinh_div_cosh, div_lt_one (Real.cosh_pos y)]
    exact Real.sinh_lt_cosh y

/- ------------------------------------------------------------------
§ Theorems for C2, C3, C6
------------------------------------------------------------------ -/

/-- C2: after `swap_mcore_mixin(module, M)` the module's accepted adapter
types are exactly those of `M`'s parameter-efficient fine-tuning method:
LoRA and IA3 for the self-attention mixin, IA3 for the MLP mixin,
prompt-tuning for the embedding mixin, and the parallel linear adapter
for the transformer-layer mixin. -/
theorem swap_mcore_mixin_accepted_adapter_types {ρ : Type} (m : PatchedModule ρ) :
    (swap_mcore_mixin m .mCoreSelfAttentionMixin).accepted_adapter_types =
        [AdapterCfg.LoraKQVAdapterConfig, AdapterCfg.InfusedAdapterConfig] ∧
      (swap_mcore_mixin m .mCoreMLPMixin).accepted_adapter_types =
        [AdapterCfg.MLPInfusedAdapterConfig] ∧
      (swap_mcore_mixin m .mCoreGPTEmbeddingMixin).accepted_adapter_types =
        [AdapterCfg.PromptEncoderAdapterConfig] ∧
      (swap_mcore_mixin m .mCoreTransformerLayerMixin).accepted_adapter_types =
        [AdapterCfg.ParallelLinearAdapterConfig] :=
  ⟨rfl, rfl, rfl, rfl⟩

/-- C3 counterexample: swapping in `MCoreSelfAttentionMixin` mutates more
than the class pointer and the accepted-adapter-type registration: it
flips the `return_layernorm_output` configuration flag of the
`linear_qkv` submodule from `false` to `true`. -/
theorem swap_mcore_mixin_mutates_linear_qkv_flag :
    (swap_mcore_mixin
        (⟨none, [], false, 0⟩ : PatchedModule Nat)
        .mCoreSelfAttentionMixin).linear_qkv_return_layernorm_output ≠
      (⟨none, [], false, 0⟩ : PatchedModule Nat).linear_qkv_return_layernorm_output := by
  decide

/-- C3 (amended): `swap_mcore_mixin(m, M)` patches `m` in place, mutating
only the class pointer, the accepted-adapter-type registration and — for
`MCoreSelfAttentionMixin` only — the `linear_qkv.return_layernorm_output`
flag; every other attribute of `m` is unchanged, and the flag itself is
unchanged for the other three mixins. -/
theorem swap_mcore_mixin_frame {ρ : Type} (m : PatchedModule ρ) (M : MixinClass) :
    (swap_mcore_mixin m M).rest = m.rest ∧
      (M ≠ .mCoreSelfAttentionMixin →
        (swap_mcore_mixin m M).linear_qkv_return_layernorm_output =
          m.linear_qkv_return_layernorm_output) := by
  cases M <;> exact ⟨rfl, fun h => by first | exact absurd rfl h | rfl⟩

/-- Witness for `swap_mcore_mixin_frame` at a concrete module and mixin. -/
theorem swap_mcore_mixin_frame_witness :
    MixinClass.mCoreMLPMixin ≠ MixinClass.mCoreSelfAttentionMixin ∧
      ((swap_mcore_mixin (⟨none, [], false, 7⟩ : PatchedModule Nat)
            .mCoreMLPMixin).rest = 7 ∧
        (swap_mcore_mixin (⟨none, [], false, 7⟩ : PatchedModule Nat)
            .mCoreMLPMixin).linear_qkv_return_layernorm_output = false) :=
  ⟨by decide,
    ⟨(swap_mcore_mixin_frame (⟨none, [], false, 7⟩ : PatchedModule Nat)
        .mCoreMLPMixin).1,
      (swap_mcore_mixin_frame (⟨none, [], false, 7⟩ : PatchedModule Nat)
          .mCoreMLPMixin).2 (by decide)⟩⟩

/-- C6: `ImageToken()` has token string `"<image>"`, token index `-200`
(equal to `IMAGE_TOKEN_INDEX`), media type `"image"`, `use_start_end`
false and no encoder function; `VideoToken()` has token string
`"<video>"`, token index `-300` (equal to `VIDEO_TOKEN_INDEX`), media
type `"video"`, `use_start_end` false and no encoder function. -/
theorem multimodal_token_defaults :
    ImageToken.token_str = "<image>" ∧
      ImageToken.token_index = -200 ∧
      ImageToken.token_index = IMAGE_TOKEN_INDEX ∧
      ImageToken.media_type = "image" ∧
      ImageToken.use_start_end = false ∧
      ImageToken.encoder_fn = none ∧
      VideoToken.token_str = "<video>" ∧
      VideoToken.token_index = -300 ∧
      VideoToken.token_index = VIDEO_TOKEN_INDEX ∧
      VideoToken.media_type = "video" ∧
      VideoToken.use_start_end = false ∧
      VideoToken.encoder_fn = none :=
  ⟨rfl, rfl, rfl, rfl, rfl, rfl, rfl, rfl, rfl, rfl, rfl, rfl⟩

/- ------------------------------------------------------------------
§ Theorems for C5, C8, C9
------------------------------------------------------------------ -/

/-- C5: for every `logits_soft_cap` c > 0, every entry of the tensor
returned by `GriffinModel._embedding_decode_` — and hence every entry of
the tensor returned by `embedding_decode`, which post-processes its
matmul output with `_embedding_decode_` — lies strictly between `-c` and
`c`, because every raw logit `x` is mapped to `tanh(x / c) * c`. -/
theorem embedding_decode_soft_cap (c : ℝ) (hc : 0 < c)
    (logits : Nat → Nat → Nat → ℝ) (h : Nat) (weight : Nat → Nat → ℝ)
    (x : Nat → Nat → Nat → ℝ) (transpose : Bool) (i j k : Nat) :
    (-c < _embedding_decode_ c logits transpose i j k ∧
        _embedding_decode_ c logits transpose i j k < c) ∧
      (-c < embedding_decode c h weight x transpose i j k ∧
        embedding_decode c h weight x transpose i j k < c) := by
  have key : ∀ f : Nat → Nat → Nat → ℝ,
      -c < _embedding_decode_ c f transpose i j k ∧
        _embedding_decode_ c f transpose i j k < c := by
    intro f
    have hb : ∀ z : ℝ, -c < Real.tanh z * c ∧ Real.tanh z * c < c := by
      intro z
      obtain ⟨h1, h2⟩ := real_tanh_bounds z
      constructor
      · have := mul_lt_mul_of_pos_right h1 hc
        rw [neg_one_mul] at this
        exact this
      · have := mul_lt_mul_of_pos_right h2 hc
        rw [one_mul] at this
        exact this
    unfold _embedding_decode_
    cases transpose <;> simp <;> exact hb _
  exact ⟨key logits, key _⟩

/-- Witness for `embedding_decode_soft_cap` at `c = 30` and the zero
logits tensor. -/
theorem embedding_decode_soft_cap_witness :
    (0 : ℝ) < 30 ∧
      ((-30 < _embedding_decode_ 30 (fun _ _ _ => 0) false 0 0 0 ∧
          _embedding_decode_ 30 (fun _ _ _ => 0) false 0 0 0 < 30) ∧
        (-30 < embedding_decode 30 1 (fun _ _ => 0) (fun _ _ _ => 0) false 0 0 0 ∧
          embedding_decode 30 1 (fun _ _ => 0) (fun _ _ _ => 0) false 0 0 0 < 30)) :=
  ⟨by norm_num,
    embedding_decode_soft_cap 30 (by norm_num) (fun _ _ _ => 0) 1 (fun _ _ => 0)
      (fun _ _ _ => 0) false 0 0 0⟩

/-- C8: for every combination of constructor arguments,
`GriffinModel.__init__` establishes `post_process = False` and
`share_embeddings_and_output_weights = True`; the only state-mutating
method `set_input_tensor` preserves both; and
`shared_embedding_or_output_weight` returns the word-embedding weight
when `pre_process` is true and `None` when it is false — the
`output_layer` branch is unreachable. -/
theorem griffinModel_init_invariants (W : Type) (vocab_size : Nat)
    (logits_soft_cap : ℝ) (position_embedding_type : String) (pre_process : Bool)
    (w : W) (t : W) :
    (griffinModel_init W vocab_size logits_soft_cap position_embedding_type
        pre_process w).post_process = false ∧
      (griffinModel_init W vocab_size logits_soft_cap position_embedding_type
          pre_process w).share_embeddings_and_output_weights = true ∧
      (set_input_tensor (griffinModel_init W vocab_size logits_soft_cap
          position_embedding_type pre_process w) t).post_process = false ∧
      (set_input_tensor (griffinModel_init W vocab_size logits_soft_cap
          position_embedding_type pre_process w)
          t).share_embeddings_and_output_weights = true ∧
      shared_embedding_or_output_weight (griffinModel_init W vocab_size
          logits_soft_cap position_embedding_type pre_process w) =
        (if pre_process then some w else none) ∧
      shared_embedding_or_output_weight (set_input_tensor (griffinModel_init W
          vocab_size logits_soft_cap position_embedding_type pre_process w) t) =
        (if pre_process then some w else none) := by
  cases pre_process <;>
    simp [griffinModel_init, set_input_tensor, shared_embedding_or_output_weight]

/-- C9: `MCoreSelfAttentionMixin.get_query_key_value_tensors` raises
`ValueError` exactly when `linear_qkv` is an instance of neither
`TELayerNormColumnParallelLinear` nor `TEColumnParallelLinear`; for the
two recognized types no `ValueError` is ever raised (the only other
possible exception is the `AssertionError` of the infused-adapter
checks). -/
theorem get_query_key_value_tensors_valueError_iff {α : Type} [Add α]
    (s : SelfAttentionState α) (hidden_states : Tensor3 α) :
    get_query_key_value_tensors s hidden_states = Except.error PyError.valueError ↔
      s.linear_qkv_type = LinearQKVType.otherType := by
  obtain ⟨ty, lin, ln, np, ng, hn, avail, lora, kf, vf⟩ := s
  cases ty <;> cases avail <;>
    rcases lora with _ | lo <;> rcases kf with _ | k0 <;> rcases vf with _ | v0 <;>
    simp [get_query_key_value_tensors, bind, Except.bind]

/- ------------------------------------------------------------------
§ qkv_view_split: shapes and contents (claim C4)
------------------------------------------------------------------ -/

theorem key_col_getElem (q G hn : Nat) (ng : Nat) (col : List α) (g t : Nat)
    (hg : g < ng) (ht : t < hn) (hG : G = (q + 2) * hn) :
    (((chunkN ng G col).map fun grp => (grp.drop (q * hn)).take hn)[g]?.bind
        fun grp => grp[t]?) =
      col[g * G + q * hn + t]? := by
  rw [List.getElem?_map, chunkN_getElem?, if_pos hg]
  simp only [Option.map_some', Option.some_bind]
  rw [List.getElem?_take_of_lt ht, List.drop_take]
  have h2 : G - q * hn = 2 * hn := by
    subst hG
    have : (q + 2) * hn = q * hn + 2 * hn := by ring
    omega
  rw [h2, List.getElem?_take_of_lt (by omega), List.drop_drop, List.getElem?_drop]

theorem value_col_getElem (q G hn : Nat) (ng : Nat) (col : List α) (g t : Nat)
    (hg : g < ng) (ht : t < hn) (hG : G = (q + 2) * hn) :
    (((chunkN ng G col).map fun grp => (grp.drop (q * hn + hn)).take hn)[g]?.bind
        fun grp => grp[t]?) =
      col[g * G + q * hn + hn + t]? := by
  rw [List.getElem?_map, chunkN_getElem?, if_pos hg]
  simp only [Option.map_some', Option.some_bind]
  rw [List.getElem?_take_of_lt ht, List.drop_take]
  have h2 : G - (q * hn + hn) = hn := by
    subst hG
    have : (q + 2) * hn = q * hn + hn + hn := by ring
    omega
  rw [h2, List.getElem?_take_of_lt (by omega), List.drop_drop, List.getElem?_drop]
  all_goals congr 1
  all_goals omega

theorem query_col_getElem (np ng hn : Nat) (col : List α) (p t : Nat)
    (hdvd : ng ∣ np) (hhn : 0 < hn) (hp : p < np) (ht : t < hn)
    (hcol : col.length = ng * ((np / ng + 2) * hn)) :
    ((chunkN
          ((((chunkN ng ((np / ng + 2) * hn) col).map fun grp =>
              grp.take (np / ng * hn)).flatten.length) / hn) hn
          (((chunkN ng ((np / ng + 2) * hn) col).map fun grp =>
              grp.take (np / ng * hn)).flatten))[p]?.bind fun grp => grp[t]?) =
      col[p / (np / ng) * ((np / ng + 2) * hn) + p % (np / ng) * hn + t]? := by
  set q := np / ng with hqdef
  set pos := (chunkN ng ((q + 2) * hn) col).map fun grp => grp.take (q * hn) with hposdef
  have hnp : 0 < np := Nat.pos_of_ne_zero fun h => by omega
  have hngpos : 0 < ng := by
    rcases Nat.eq_zero_or_pos ng with h | h
    · subst h
      rw [Nat.zero_dvd] at hdvd
      omega
    · exact h
  have hqpos : 0 < q := Nat.div_pos (Nat.le_of_dvd hnp hdvd) hngpos
  have hqng : q * ng = np := Nat.div_mul_cancel hdvd
  have hpieces : ∀ x ∈ pos, x.length = q * hn := by
    intro x hx
    rcases List.mem_map.1 hx with ⟨grp, hgrp, rfl⟩
    have hlen := mem_chunkN_length (le_of_eq hcol.symm) grp hgrp
    rw [List.length_take, hlen]
    have : q * hn ≤ (q + 2) * hn := Nat.mul_le_mul_right _ (by omega)
    omega
  have hflen : pos.flatten.length = np * hn := by
    rw [flatten_length_of_forall_length pos hpieces, hposdef, List.length_map,
      chunkN_length]
    calc ng * (q * hn) = q * ng * hn := by ring
    _ = np * hn := by rw [hqng]
  have hdiv : pos.flatten.length / hn = np := by
    rw [hflen]
    exact Nat.mul_div_cancel np hhn
  rw [hdiv, chunkN_getElem?, if_pos hp]
  simp only [Option.some_bind]
  rw [List.getElem?_take_of_lt ht, List.getElem?_drop,
    flatten_getElem?_of_forall_length (Nat.mul_pos hqpos hhn) pos hpieces]
  have hmodlt : p % q * hn + t < q * hn := by
    have h1 : p % q ≤ q - 1 := by
      have := Nat.mod_lt p hqpos
      omega
    have h2 : p % q * hn ≤ (q - 1) * hn := Nat.mul_le_mul_right hn h1
    have h3 : (q - 1) * hn = q * hn - 1 * hn := by rw [Nat.sub_mul]
    have h4 : hn ≤ q * hn := Nat.le_mul_of_pos_left hn hqpos
    omega
  have hsplit : p * hn + t = q * hn * (p / q) + (p % q * hn + t) := by
    conv_lhs => rw [← Nat.div_add_mod p q]
    ring
  have hdiv2 : (p * hn + t) / (q * hn) = p / q := by
    rw [hsplit, Nat.mul_add_div (Nat.mul_pos hqpos hhn), Nat.div_eq_of_lt hmodlt]
    omega
  have hmod2 : (p * hn + t) % (q * hn) = p % q * hn + t := by
    rw [hsplit, Nat.mul_add_mod, Nat.mod_eq_of_lt hmodlt]
  rw [hdiv2, hmod2, hposdef, List.getElem?_map, chunkN_getElem?]
  have hpq : p / q < ng := by
    rw [Nat.div_lt_iff_lt_mul hqpos]
    calc p < np := hp
    _ = ng * q := by rw [← hqng]; ring
  rw [if_pos hpq]
  simp only [Option.map_some', Option.some_bind]
  rw [List.take_take, min_eq_left (Nat.mul_le_mul_right hn (by omega)),
    List.getElem?_take_of_lt hmodlt, List.getElem?_drop, ← Nat.add_assoc]

theorem rect4_map (t : Tensor3 α) (F : List α → List (List β)) (sq b L d2 d3 : Nat)
    (ht : rect3 sq b L t = true)
    (hF : ∀ col : List α, col.length = L →
      (F col).length = d2 ∧ ∀ g ∈ F col, g.length = d3) :
    rect4 sq b d2 d3 (t.map fun row => row.map F) = true := by
  rw [rect3_iff] at ht
  obtain ⟨hlen, hmem⟩ := ht
  rw [rect4_iff]
  refine ⟨by simp [hlen], ?_⟩
  intro r hr
  rcases List.mem_map.1 hr with ⟨row, hrow, rfl⟩
  obtain ⟨hrowlen, hcols⟩ := hmem row hrow
  refine ⟨by simp [hrowlen], ?_⟩
  intro p hp
  rcases List.mem_map.1 hp with ⟨col, hcol, rfl⟩
  exact hF col (hcols col hcol)

theorem qkv_view_split_shapes {α : Type} (np ng hn sq b : Nat) (hdvd : ng ∣ np)
    (hhn : 0 < hn) (mixed : Tensor3 α)
    (hshape : rect3 sq b (ng * ((np / ng + 2) * hn)) mixed = true) :
    rect4 sq b np hn (qkv_view_split np ng hn mixed).1 = true ∧
      rect4 sq b ng hn (qkv_view_split np ng hn mixed).2.1 = true ∧
      rect4 sq b ng hn (qkv_view_split np ng hn mixed).2.2 = true := by
  set q := np / ng with hqdef
  have hqng : q * ng = np := Nat.div_mul_cancel hdvd
  have hGsplit : (q + 2) * hn = q * hn + (hn + hn) := by ring
  refine ⟨?_, ?_, ?_⟩
  · refine rect4_map mixed _ sq b _ np hn hshape ?_
    intro col hcol
    have hpieces : ∀ x ∈ (chunkN ng ((q + 2) * hn) col).map fun grp =>
        grp.take (q * hn), x.length = q * hn := by
      intro x hx
      rcases List.mem_map.1 hx with ⟨grp, hgrp, rfl⟩
      have hlen := mem_chunkN_length (le_of_eq hcol.symm) grp hgrp
      rw [List.length_take, hlen]
      omega
    have hflen : (((chunkN ng ((q + 2) * hn) col).map fun grp =>
        grp.take (q * hn)).flatten).length = np * hn := by
      rw [flatten_length_of_forall_length _ hpieces, List.length_map, chunkN_length]
      calc ng * (q * hn) = q * ng * hn := by ring
      _ = np * hn := by rw [hqng]
    constructor
    · simp only [chunkN_length, hflen]
      exact Nat.mul_div_cancel np hhn
    · intro g hg
      refine mem_chunkN_length ?_ g hg
      rw [hflen, Nat.mul_div_cancel np hhn]
  · refine rect4_map mixed _ sq b _ ng hn hshape ?_
    intro col hcol
    have hsub1 : (q + 2) * hn - q * hn = hn + hn := by
      have h := hGsplit
      omega
    constructor
    · simp [chunkN_length]
    · intro g hg
      rcases List.mem_map.1 hg with ⟨grp, hgrp, rfl⟩
      have hlen := mem_chunkN_length (le_of_eq hcol.symm) grp hgrp
      rw [List.length_take, List.length_drop, hlen, hsub1]
      omega
  · refine rect4_map mixed _ sq b _ ng hn hshape ?_
    intro col hcol
    have hsub2 : (q + 2) * hn - (q * hn + hn) = hn := by
      have h := hGsplit
      omega
    constructor
    · simp [chunkN_length]
    · intro g hg
      rcases List.mem_map.1 hg with ⟨grp, hgrp, rfl⟩
      have hlen := mem_chunkN_length (le_of_eq hcol.symm) grp hgrp
      rw [List.length_take, List.length_drop, hlen, hsub2]
      omega

theorem get_qkv_no_adapter {α : Type} [Add α] (s : SelfAttentionState α)
    (hs : Tensor3 α) (htype : s.linear_qkv_type ≠ LinearQKVType.otherType)
    (hno : s.is_adapter_available = false ∨
      (s.lora_kqv_adapter = none ∧ s.key_infused_adapter = none ∧
        s.value_infused_adapter = none)) :
    get_query_key_value_tensors s hs =
      Except.ok (base_get_query_key_value_tensors s hs) := by
  obtain ⟨ty, lin, ln, np, ng, hn, avail, lora, kf, vf⟩ := s
  simp only at htype hno
  cases ty <;> cases avail <;>
    rcases lora with _ | lo <;> rcases kf with _ | k0 <;> rcases vf with _ | v0 <;>
    simp_all [get_query_key_value_tensors, base_get_query_key_value_tensors, bind,
      Except.bind]

theorem get4_map_col (t : Tensor3 α) (F : List α → List (List β)) (i j k m : Nat) :
    get4 (t.map fun row => row.map F) i j k m =
      ((t[i]?.bind fun row => row[j]?).bind fun col => (F col)[k]?).bind
        fun grp => grp[m]? := by
  unfold get4
  rw [List.getElem?_map]
  cases ht : t[i]? with
  | none => simp
  | some row =>
    simp only [Option.map_some', Option.some_bind]
    rw [List.getElem?_map]
    cases hr : row[j]? with
    | none => simp
    | some col => simp

theorem get3_as_bind (t : Tensor3 α) (i j k : Nat) :
    get3 t i j k = ((t[i]?).bind fun row => row[j]?).bind fun col => col[k]? := rfl

/-- C4: when no adapter is involved and `linear_qkv` produces a
rectangular `mixed_qkv` of shape `[sq, b, ng*((np/ng)+2)*hn]`,
`get_query_key_value_tensors` returns `(query, key, value)` of shapes
`[sq, b, np, hn]`, `[sq, b, ng, hn]`, `[sq, b, ng, hn]`, obtained by
splitting the last dimension of each query group into its first
`(np/ng)*hn` entries (query), the next `hn` entries (key) and the last
`hn` entries (value). -/
theorem get_query_key_value_tensors_split {α : Type} [Add α]
    (s : SelfAttentionState α) (hidden_states : Tensor3 α) (sq b np ng hn : Nat)
    (hnp : s.num_attention_heads_per_partition = np)
    (hng : s.num_query_groups_per_partition = ng)
    (hhn : s.hidden_size_per_attention_head = hn)
    (hdvd : ng ∣ np) (hhnpos : 0 < hn)
    (htype : s.linear_qkv_type ≠ LinearQKVType.otherType)
    (hav : s.is_adapter_available = false)
    (hshape : rect3 sq b (ng * ((np / ng + 2) * hn))
      (s.linear_qkv hidden_states) = true) :
    ∃ query key value,
      get_query_key_value_tensors s hidden_states = Except.ok (query, key, value) ∧
        rect4 sq b np hn query = true ∧
        rect4 sq b ng hn key = true ∧
        rect4 sq b ng hn value = true ∧
        (∀ i j g t, g < ng → t < hn →
          get4 key i j g t =
            get3 (s.linear_qkv hidden_states) i j
              (g * ((np / ng + 2) * hn) + np / ng * hn + t)) ∧
        (∀ i j g t, g < ng → t < hn →
          get4 value i j g t =
            get3 (s.linear_qkv hidden_states) i j
              (g * ((np / ng + 2) * hn) + np / ng * hn + hn + t)) ∧
        (∀ i j p t, p < np → t < hn →
          get4 query i j p t =
            get3 (s.linear_qkv hidden_states) i j
              (p / (np / ng) * ((np / ng + 2) * hn) + p % (np / ng) * hn + t)) := by
  have hres := get_qkv_no_adapter s hidden_states htype (Or.inl hav)
  unfold base_get_query_key_value_tensors at hres
  rw [hnp, hng, hhn] at hres
  obtain ⟨hq4, hk4, hv4⟩ :=
    qkv_view_split_shapes np ng hn sq b hdvd hhnpos (s.linear_qkv hidden_states) hshape
  set mixed := s.linear_qkv hidden_states with hmixed
  have hquery_eq : (qkv_view_split np ng hn mixed).1 =
      mixed.map fun row => row.map fun col =>
        chunkN
          ((((chunkN ng ((np / ng + 2) * hn) col).map fun grp =>
            grp.take (np / ng * hn)).flatten).length / hn) hn
          (((chunkN ng ((np / ng + 2) * hn) col).map fun grp =>
            grp.take (np / ng * hn)).flatten) := rfl
  have hkey_eq : (qkv_view_split np ng hn mixed).2.1 =
      mixed.map fun row => row.map fun col =>
        (chunkN ng ((np / ng + 2) * hn) col).map fun grp =>
          (grp.drop (np / ng * hn)).take hn := rfl
  have hvalue_eq : (qkv_view_split np ng hn mixed).2.2 =
      mixed.map fun row => row.map fun col =>
        (chunkN ng ((np / ng + 2) * hn) col).map fun grp =>
          (grp.drop (np / ng * hn + hn)).take hn := rfl
  refine ⟨(qkv_view_split np ng hn mixed).1, (qkv_view_split np ng hn mixed).2.1,
    (qkv_view_split np ng hn mixed).2.2, hres, hq4, hk4, hv4, ?_, ?_, ?_⟩
  · intro i j g t hg ht
    rw [hkey_eq, get4_map_col, get3_as_bind]
    cases hx : mixed[i]?.bind fun row => row[j]? with
    | none => simp
    | some col =>
      simp only [Option.some_bind]
      exact key_col_getElem (np / ng) ((np / ng + 2) * hn) hn ng col g t hg ht rfl
  · intro i j g t hg ht
    rw [hvalue_eq, get4_map_col, get3_as_bind]
    cases hx : mixed[i]?.bind fun row => row[j]? with
    | none => simp
    | some col =>
      simp only [Option.some_bind]
      have := value_col_getElem (np / ng) ((np / ng + 2) * hn) hn ng col g t hg ht rfl
      rw [this]
  · intro i j p t hp ht
    rw [hquery_eq, get4_map_col, get3_as_bind]
    cases hmi : mixed[i]? with
    | none => simp
    | some row =>
      simp only [Option.some_bind]
      cases hrj : row[j]? with
      | none => simp
      | some col =>
        simp only [Option.some_bind]
        have hrowmem : row ∈ mixed := List.getElem?_mem hmi
        have hcolmem : col ∈ row := List.getElem?_mem hrj
        rw [rect3_iff] at hshape
        have hcollen : col.length = ng * ((np / ng + 2) * hn) :=
          (hshape.2 row hrowmem).2 col hcolmem
        exact query_col_getElem np ng hn col p t hdvd hhnpos hp ht hcollen

/-- A concrete self-attention module state used to witness the split
theorem: `np = 2`, `ng = 1`, `hn = 1`, no adapters, projecting every
input to the `[1, 1, 4]` tensor `[[[1, 2, 3, 4]]]`. -/
def c4AttnState : SelfAttentionState Int :=
  { linear_qkv_type := LinearQKVType.tELayerNormColumnParallelLinear
    linear_qkv := fun _ => [[[1, 2, 3, 4]]]
    linear_qkv_layernorm := fun _ => [[[0, 0, 0, 0]]]
    num_attention_heads_per_partition := 2
    num_query_groups_per_partition := 1
    hidden_size_per_attention_head := 1
    is_adapter_available := false
    lora_kqv_adapter := none
    key_infused_adapter := none
    value_infused_adapter := none }

/-- Witness for `get_query_key_value_tensors_split` at `c4AttnState`. -/
theorem get_query_key_value_tensors_split_witness :
    (c4AttnState.num_attention_heads_per_partition = 2 ∧
      c4AttnState.num_query_groups_per_partition = 1 ∧
      c4AttnState.hidden_size_per_attention_head = 1 ∧
      (1 : Nat) ∣ 2 ∧ (0 : Nat) < 1 ∧
      c4AttnState.linear_qkv_type ≠ LinearQKVType.otherType ∧
      c4AttnState.is_adapter_available = false ∧
      rect3 1 1 (1 * ((2 / 1 + 2) * 1)) (c4AttnState.linear_qkv [[[0]]]) = true) ∧
    (∃ query key value,
      get_query_key_value_tensors c4AttnState [[[0]]] = Except.ok (query, key, value) ∧
        rect4 1 1 2 1 query = true ∧
        rect4 1 1 1 1 key = true ∧
        rect4 1 1 1 1 value = true ∧
        (∀ i j g t, g < 1 → t < 1 →
          get4 key i j g t =
            get3 (c4AttnState.linear_qkv [[[0]]]) i j
              (g * ((2 / 1 + 2) * 1) + 2 / 1 * 1 + t)) ∧
        (∀ i j g t, g < 1 → t < 1 →
          get4 value i j g t =
            get3 (c4AttnState.linear_qkv [[[0]]]) i j
              (g * ((2 / 1 + 2) * 1) + 2 / 1 * 1 + 1 + t)) ∧
        (∀ i j p t, p < 2 → t < 1 →
          get4 query i j p t =
            get3 (c4AttnState.linear_qkv [[[0]]]) i j
              (p / (2 / 1) * ((2 / 1 + 2) * 1) + p % (2 / 1) * 1 + t))) :=
  ⟨⟨rfl, rfl, rfl, by decide, by decide, by decide, rfl, by decide⟩,
    get_query_key_value_tensors_split c4AttnState [[[0]]] 1 1 2 1 1 rfl rfl rfl
      (by decide) (by decide) (by decide) rfl (by decide)⟩

/- ------------------------------------------------------------------
§ C1: splicing in a mixin without adapters
------------------------------------------------------------------ -/

/-- An embedding module state on which adapters are available but no
`PTUNING_ADAPTER` module is registered (every `get_adapter_module` call
returns `None`). -/
def embCrashState : EmbeddingState Unit Int :=
  { base_forward := fun _ _ => [[[0]]]
    is_adapter_available := true
    ptuning_adapter := none }

/-- C1 counterexample: on `embCrashState` every `get_adapter_module`
call returns `None`, yet `MCoreGPTEmbeddingMixin.forward` does not
compute the base-class result: it reads `virtual_tokens` off the missing
adapter and raises `AttributeError`, while the unpatched
`LanguageModelEmbedding.forward` returns the embedding tensor. -/
theorem embedding_mixin_diverges_on_missing_ptuning :
    embCrashState.ptuning_adapter = none ∧
      mCoreGPTEmbeddingMixin_forward embCrashState () () =
        Except.error PyError.attributeError ∧
      mCoreGPTEmbeddingMixin_forward embCrashState () () ≠
        Except.ok (base_embedding_forward embCrashState () ()) :=
  ⟨rfl, rfl, fun h => nomatch h⟩

/-- C1 (amended): assuming the adapter-framework invariant that an
unavailable adapter state yields only `None` modules, the self-attention
and MLP mixins compute the unpatched base-class result whenever
`is_adapter_available()` is false or every `get_adapter_module` call
returns `None`; the embedding mixin computes the base-class result when
`is_adapter_available()` is false (when adapters are available but the
p-tuning module is missing it raises `AttributeError` instead). -/
theorem mixins_no_adapter_refinement :
    (∀ (α : Type) [Add α] (s : SelfAttentionState α) (hs : Tensor3 α),
        s.linear_qkv_type ≠ LinearQKVType.otherType →
        (s.is_adapter_available = false ∨
          (s.lora_kqv_adapter = none ∧ s.key_infused_adapter = none ∧
            s.value_infused_adapter = none)) →
        get_query_key_value_tensors s hs =
          Except.ok (base_get_query_key_value_tensors s hs)) ∧
      (∀ (τ : Type) (s : MLPState τ) (hs : τ),
        (s.is_adapter_available = false → s.mlp_infused_adapter = none) →
        (s.is_adapter_available = false ∨ s.mlp_infused_adapter = none) →
        mCoreMLPMixin_forward s hs = base_mlp_forward s hs) ∧
      (∀ (ι α : Type) (s : EmbeddingState ι α) (ids pos : ι),
        s.is_adapter_available = false →
        mCoreGPTEmbeddingMixin_forward s ids pos =
          Except.ok (base_embedding_forward s ids pos)) := by
  refine ⟨?_, ?_, ?_⟩
  · intro α instAdd s hs htype hno
    exact get_qkv_no_adapter s hs htype hno
  · intro τ s hs hinv hno
    have hnone : s.mlp_infused_adapter = none := by
      rcases hno with h | h
      · exact hinv h
      · exact h
    rcases hfc : s.linear_fc1 hs with ⟨i0, b0⟩
    simp [mCoreMLPMixin_forward, base_mlp_forward, hfc, hnone]
  · intro ι α s ids pos hav
    simp [mCoreGPTEmbeddingMixin_forward, base_embedding_forward, hav]

/-- A concrete no-adapter self-attention state for the refinement
witness. -/
def c1AttnState : SelfAttentionState Int :=
  { linear_qkv_type := LinearQKVType.tEColumnParallelLinear
    linear_qkv := fun _ => [[[5, 6, 7, 8]]]
    linear_qkv_layernorm := fun _ => [[[0, 0, 0, 0]]]
    num_attention_heads_per_partition := 2
    num_query_groups_per_partition := 1
    hidden_size_per_attention_head := 1
    is_adapter_available := false
    lora_kqv_adapter := none
    key_infused_adapter := none
    value_infused_adapter := none }

/-- A concrete no-adapter MLP state for the refinement witness. -/
def c1MLPState : MLPState Int :=
  { linear_fc1 := fun x => (x + 1, none)
    linear_fc2 := fun x => (2 * x, some 0)
    bias_activation_fusion := false
    add_bias_linear := false
    activation_is_gelu := false
    activation_func := fun x => x * x
    bias_gelu_impl := fun x _ => x
    tensor_add := fun x y => x + y
    is_adapter_available := false
    mlp_infused_adapter := none }

/-- A concrete no-adapter embedding state for the refinement witness. -/
def c1EmbState : EmbeddingState Unit Int :=
  { base_forward := fun _ _ => [[[5]]]
    is_adapter_available := false
    ptuning_adapter := none }

/-- Witness for `mixins_no_adapter_refinement` at concrete module
states. -/
theorem mixins_no_adapter_refinement_witness :
    (c1AttnState.linear_qkv_type ≠ LinearQKVType.otherType ∧
      c1AttnState.is_adapter_available = false ∧
      get_query_key_value_tensors c1AttnState [[[9]]] =
        Except.ok (base_get_query_key_value_tensors c1AttnState [[[9]]])) ∧
      ((c1MLPState.is_adapter_available = false →
          c1MLPState.mlp_infused_adapter = none) ∧
        c1MLPState.mlp_infused_adapter = none ∧
        mCoreMLPMixin_forward c1MLPState 3 = base_mlp_forward c1MLPState 3) ∧
      (c1EmbState.is_adapter_available = false ∧
        mCoreGPTEmbeddingMixin_forward c1EmbState () () =
          Except.ok (base_embedding_forward c1EmbState () ())) :=
  ⟨⟨by decide, rfl,
      mixins_no_adapter_refinement.1 Int c1AttnState [[[9]]] (by decide) (Or.inl rfl)⟩,
    ⟨fun _ => rfl, rfl,
      mixins_no_adapter_refinement.2.1 Int c1MLPState 3 (fun _ => rfl) (Or.inr rfl)⟩,
    ⟨rfl,
      mixins_no_adapter_refinement.2.2 Unit Int c1EmbState () () rfl⟩⟩

/- ------------------------------------------------------------------
§ C10: the embedding mixin preserves the tensor shape
------------------------------------------------------------------ -/

/-- C10: under the precondition that adapter availability implies the
`PTUNING_ADAPTER` module is present (its `virtual_tokens` field is read
before the `None` check), `MCoreGPTEmbeddingMixin.forward` preserves the
`[sequence, batch, hidden]` shape of the base embedding output: when the
p-tuning adapter fires the first `virtual_tokens` rows are removed and
the same number of virtual-embedding rows are prepended, and otherwise
the tensor is returned unchanged. -/
theorem mCoreGPTEmbeddingMixin_forward_shape {ι α : Type} (s : EmbeddingState ι α)
    (ids pos : ι) (sq bs hs : Nat) (hsq : 0 < sq)
    (hbase : rect3 sq bs hs (s.base_forward ids pos) = true)
    (hpt : s.is_adapter_available = true → s.ptuning_adapter ≠ none)
    (hvshape : ∀ pt, s.ptuning_adapter = some pt →
      rect3 pt.virtual_tokens bs hs (pt.forward bs) = true) :
    ∃ out, mCoreGPTEmbeddingMixin_forward s ids pos = Except.ok out ∧
      rect3 sq bs hs out = true := by
  obtain ⟨hel, hrows⟩ := (rect3_iff sq bs hs (s.base_forward ids pos)).1 hbase
  unfold mCoreGPTEmbeddingMixin_forward
  cases hav : s.is_adapter_available with
  | false => exact ⟨s.base_forward ids pos, rfl, hbase⟩
  | true =>
    cases hpta : s.ptuning_adapter with
    | none => exact absurd hpta (hpt hav)
    | some pt =>
      have hhead : (s.base_forward ids pos).headD [] ∈ s.base_forward ids pos := by
        cases he : s.base_forward ids pos with
        | nil =>
          rw [he] at hel
          simp at hel
          omega
        | cons r rest => simp [he]
      have hbslen : ((s.base_forward ids pos).headD []).length = bs :=
        (hrows _ hhead).1
      obtain ⟨hvl, hvrows⟩ :=
        (rect3_iff pt.virtual_tokens bs hs (pt.forward bs)).1 (hvshape pt hpta)
      simp only [hbslen, hel]
      by_cases hvt : pt.virtual_tokens ≤ sq
      · rw [if_pos hvt]
        refine ⟨_, rfl, ?_⟩
        rw [rect3_iff]
        constructor
        · rw [List.length_append, List.length_drop, hvl, hel]
          omega
        · intro r hr
          rcases List.mem_append.1 hr with h | h
          · exact hvrows r h
          · exact hrows r (List.mem_of_mem_drop h)
      · rw [if_neg hvt]
        exact ⟨s.base_forward ids pos, rfl, hbase⟩

/-- A concrete embedding state for the shape-preservation witness:
sequence 2, batch 2, hidden 1, p-tuning adapter with one virtual
token. -/
def c10EmbState : EmbeddingState Unit Int :=
  { base_forward := fun _ _ => [[[0], [1]], [[2], [3]]]
    is_adapter_available := true
    ptuning_adapter := some { virtual_tokens := 1, forward := fun _ => [[[9], [9]]] } }

/-- Witness for `mCoreGPTEmbeddingMixin_forward_shape` at
`c10EmbState`. -/
theorem mCoreGPTEmbeddingMixin_forward_shape_witness :
    ((0 : Nat) < 2 ∧
      rect3 2 2 1 (c10EmbState.base_forward () ()) = true ∧
      (c10EmbState.is_adapter_available = true →
        c10EmbState.ptuning_adapter ≠ none) ∧
      (∀ pt, c10EmbState.ptuning_adapter = some pt →
        rect3 pt.virtual_tokens 2 1 (pt.forward 2) = true)) ∧
    (∃ out, mCoreGPTEmbeddingMixin_forward c10EmbState () () = Except.ok out ∧
      rect3 2 2 1 out = true) :=
  ⟨⟨by decide, by decide, fun _ h => Option.noConfusion h, fun pt h => by
      cases h
      decide⟩,
    mCoreGPTEmbeddingMixin_forward_shape c10EmbState () () 2 2 1 (by decide)
      (by decide) (fun _ h => Option.noConfusion h) (fun pt h => by
        cases h
        decide)⟩
